import Mathlib

/-!
Verification development for the YouTube video downloader pipeline
(`fileManager.ts`, `youtubeStreamManager.ts` — `YoutubeStreamManager` and
`MediaProcessor` — and `youtubeDownloader.ts`).

The filesystem is modelled as the list of existing paths, a path being its
list of components (`path.join a b` is list append).  Stateful TypeScript
code becomes explicit state passing; fallible code returns `Except`;
environment-driven failures (a deletion that throws, a backend that
errors) are injected through explicit environment records.
-/

namespace VideoDownloader

/-- A filesystem path, as its list of components (`path.join` is append). -/
abbrev Path := List String

/-- The filesystem state: the list of paths that currently exist
(directories and files alike). -/
abbrev FS := List Path

/-- `fs.promises.unlink p` / plain removal of one exact path. -/
def removePath (fs : FS) (p : Path) : FS :=
  fs.filter (fun q => !(q == p))

/-- `fs.promises.rm(d, { recursive: true, force: true })`: removes `d`
and everything below it. -/
def removeTree (fs : FS) (d : Path) : FS :=
  fs.filter (fun q => !(d.isPrefixOf q))

/-- Creation of a path (`mkdir` / a write creating a file). -/
def insertPath (fs : FS) (p : Path) : FS :=
  if p ∈ fs then fs else p :: fs

/-- `fs.promises.readdir(d)` returning a non-empty listing: some existing
path lies strictly below `d`. -/
def hasEntries (fs : FS) (d : Path) : Bool :=
  fs.any (fun q => d.isPrefixOf q && !(q == d))

theorem mem_removePath {fs : FS} {p q : Path} :
    q ∈ removePath fs p ↔ q ∈ fs ∧ q ≠ p := by
  simp [removePath]

theorem mem_removeTree {fs : FS} {d q : Path} :
    q ∈ removeTree fs d ↔ q ∈ fs ∧ d.isPrefixOf q = false := by
  simp [removeTree]

theorem mem_insertPath {fs : FS} {p q : Path} :
    q ∈ insertPath fs p ↔ q = p ∨ q ∈ fs := by
  unfold insertPath
  split
  · constructor
    · exact fun h => Or.inr h
    · rintro (rfl | h) <;> assumption
  · simp [List.mem_cons]

theorem insertPath_self {fs : FS} {p : Path} : p ∈ insertPath fs p :=
  mem_insertPath.mpr (Or.inl rfl)

theorem mem_insertPath_of_mem {fs : FS} {p q : Path} (h : q ∈ fs) :
    q ∈ insertPath fs p :=
  mem_insertPath.mpr (Or.inr h)

/-- `fileManager.ts` `FileManager`: constructed with a name prefix
(default `"ytdownload"`), it captures `Date.now()` once, at construction
time, and derives `baseTempDir` from it; `tmpdir` stands for
`os.tmpdir()`. -/
structure FileManagerState where
  prefixStr : String
  timestamp : Nat
  tmpdir : Path

/-- Decimal string of a natural number (the interpolation of
`this.timestamp` into the directory name template). -/
def natDecString (n : Nat) : String :=
  if n = 0 then "0" else ⟨((Nat.digits 10 n).reverse.map Nat.digitChar)⟩

/-- `this.baseTempDir = path.join(os.tmpdir(), prefix_timestamp)`. -/
def baseTempDir (fm : FileManagerState) : Path :=
  fm.tmpdir ++ [fm.prefixStr ++ "_" ++ natDecString fm.timestamp]

/-- The `TemporaryPaths` record returned by `createTemporaryPaths`. -/
structure TemporaryPaths where
  tempDir : Path
  videoPath : Path
  audioPath : Path
deriving DecidableEq

/-- The paths `createTemporaryPaths` returns: the root directory and the
two timestamped intermediate files inside it. -/
def temporaryPathsOf (fm : FileManagerState) : TemporaryPaths :=
  { tempDir := baseTempDir fm
    videoPath := baseTempDir fm ++ ["temp_video_" ++ natDecString fm.timestamp ++ ".mp4"]
    audioPath := baseTempDir fm ++ ["temp_audio_" ++ natDecString fm.timestamp ++ ".aac"] }

/-- Environment of the cleanup pass: which `unlink` calls throw, and
whether the directory-removal call throws. -/
structure CleanupEnv where
  unlinkFails : Path → Bool
  rmdirFails : Bool

/-- One iteration of the deletion loop in `cleanupTemporaryFiles`:
`if (fs.existsSync(filePath)) await fs.promises.unlink(filePath)`,
catching the error into the error list instead of raising. -/
def unlinkOne (e : CleanupEnv) (fs : FS) (p : Path) : FS × List String :=
  if p ∈ fs then
    if e.unlinkFails p then
      (fs, ["Failed to delete temporary file " ++ String.intercalate "/" p])
    else (removePath fs p, [])
  else (fs, [])

/-- The directory-removal step of `cleanupTemporaryFiles`: if the root
exists, `rm -rf` when `readdir` shows entries, `rmdir` otherwise; an
exception is collected, not raised. -/
def removeDirOp (e : CleanupEnv) (fs : FS) (d : Path) : FS × List String :=
  if d ∈ fs then
    if e.rmdirFails then
      (fs, ["Failed to remove temporary directory " ++ String.intercalate "/" d])
    else if hasEntries fs d then (removeTree fs d, [])
    else (removePath fs d, [])
  else (fs, [])

/-- `cleanupTemporaryFiles(paths)`: unlink the video and audio
intermediates, remove the root directory, collecting (in order) every
error rather than stopping at the first.  A non-empty error list is
raised as `CleanupError` by the caller. -/
def cleanupTemporaryFiles (e : CleanupEnv) (fs : FS) (tp : TemporaryPaths) :
    FS × List String :=
  let s1 := unlinkOne e fs tp.videoPath
  let s2 := unlinkOne e s1.1 tp.audioPath
  let s3 := removeDirOp e s2.1 tp.tempDir
  (s3.1, s1.2 ++ s2.2 ++ s3.2)

theorem unlinkOne_subset {e : CleanupEnv} {fs : FS} {p q : Path}
    (h : q ∈ (unlinkOne e fs p).1) : q ∈ fs := by
  unfold unlinkOne at h
  split at h
  · split at h
    · exact h
    · exact (mem_removePath.mp h).1
  · exact h

theorem isPrefixOf_refl (p : Path) : p.isPrefixOf p = true :=
  List.isPrefixOf_iff_prefix.mpr List.prefix_rfl

theorem unlinkOne_noerr {e : CleanupEnv} {fs : FS} {p : Path}
    (h : (unlinkOne e fs p).2 = []) : p ∉ (unlinkOne e fs p).1 := by
  unfold unlinkOne at *
  by_cases hin : p ∈ fs
  · rw [if_pos hin] at h ⊢
    by_cases hf : e.unlinkFails p = true
    · rw [if_pos hf] at h
      simp at h
    · rw [if_neg hf] at h ⊢
      intro hmem
      exact (mem_removePath.mp hmem).2 rfl
  · rw [if_neg hin] at h ⊢
    exact hin

theorem unlinkOne_preserve {e : CleanupEnv} {fs : FS} {p q : Path}
    (hq : q ∈ fs) (hne : q ≠ p) : q ∈ (unlinkOne e fs p).1 := by
  unfold unlinkOne
  split
  · split
    · exact hq
    · exact mem_removePath.mpr ⟨hq, hne⟩
  · exact hq

theorem unlinkOne_removed_only {e : CleanupEnv} {fs : FS} {p q : Path}
    (hq : q ∈ fs) (h : q ∉ (unlinkOne e fs p).1) : q = p := by
  by_contra hne
  exact h (unlinkOne_preserve hq hne)

theorem removeDirOp_subset {e : CleanupEnv} {fs : FS} {d q : Path}
    (h : q ∈ (removeDirOp e fs d).1) : q ∈ fs := by
  unfold removeDirOp at h
  split at h
  · split at h
    · exact h
    · split at h
      · exact (mem_removeTree.mp h).1
      · exact (mem_removePath.mp h).1
  · exact h

theorem removeDirOp_noerr {e : CleanupEnv} {fs : FS} {d : Path}
    (h : (removeDirOp e fs d).2 = []) : d ∉ (removeDirOp e fs d).1 := by
  unfold removeDirOp at *
  by_cases hin : d ∈ fs
  · rw [if_pos hin] at h ⊢
    by_cases hf : e.rmdirFails = true
    · rw [if_pos hf] at h
      simp at h
    · rw [if_neg hf] at h ⊢
      by_cases he : hasEntries fs d = true
      · rw [if_pos he]
        intro hmem
        have := (mem_removeTree.mp hmem).2
        rw [isPrefixOf_refl] at this
        exact Bool.true_eq_false.mp this
      · rw [if_neg he]
        intro hmem
        exact (mem_removePath.mp hmem).2 rfl
  · rw [if_neg hin] at h ⊢
    exact hin

theorem removeDirOp_preserve {e : CleanupEnv} {fs : FS} {d q : Path}
    (hq : q ∈ fs) (hpre : d.isPrefixOf q = false) :
    q ∈ (removeDirOp e fs d).1 := by
  unfold removeDirOp
  split
  · split
    · exact hq
    · split
      · exact mem_removeTree.mpr ⟨hq, hpre⟩
      · refine mem_removePath.mpr ⟨hq, ?_⟩
        rintro rfl
        rw [isPrefixOf_refl] at hpre
        exact Bool.true_eq_false.mp hpre
  · exact hq

theorem removeDirOp_removed_only {e : CleanupEnv} {fs : FS} {d q : Path}
    (hq : q ∈ fs) (h : q ∉ (removeDirOp e fs d).1) : d.isPrefixOf q = true := by
  by_contra hne
  exact h (removeDirOp_preserve hq (Bool.not_eq_true _ ▸ hne))

theorem unlinkOne_id_of_absent {e : CleanupEnv} {fs : FS} {p : Path}
    (h : p ∉ fs) : unlinkOne e fs p = (fs, []) := by
  unfold unlinkOne
  rw [if_neg h]

theorem removeDirOp_id_of_absent {e : CleanupEnv} {fs : FS} {d : Path}
    (h : d ∉ fs) : removeDirOp e fs d = (fs, []) := by
  unfold removeDirOp
  rw [if_neg h]

theorem cleanup_subset {e : CleanupEnv} {fs : FS} {tp : TemporaryPaths} {q : Path}
    (h : q ∈ (cleanupTemporaryFiles e fs tp).1) : q ∈ fs := by
  simp only [cleanupTemporaryFiles] at h
  exact unlinkOne_subset (unlinkOne_subset (removeDirOp_subset h))

theorem cleanup_noerr_absent {e : CleanupEnv} {fs : FS} {tp : TemporaryPaths}
    (h : (cleanupTemporaryFiles e fs tp).2 = []) :
    tp.videoPath ∉ (cleanupTemporaryFiles e fs tp).1 ∧
    tp.audioPath ∉ (cleanupTemporaryFiles e fs tp).1 ∧
    tp.tempDir ∉ (cleanupTemporaryFiles e fs tp).1 := by
  simp only [cleanupTemporaryFiles, List.append_eq_nil] at h ⊢
  obtain ⟨⟨h1, h2⟩, h3⟩ := h
  refine ⟨?_, ?_, removeDirOp_noerr h3⟩
  · intro hmem
    exact unlinkOne_noerr h1 (unlinkOne_subset (removeDirOp_subset hmem))
  · intro hmem
    exact unlinkOne_noerr h2 (removeDirOp_subset hmem)

theorem cleanup_preserve {e : CleanupEnv} {fs : FS} {tp : TemporaryPaths} {q : Path}
    (hq : q ∈ fs) (h1 : q ≠ tp.videoPath) (h2 : q ≠ tp.audioPath)
    (h3 : tp.tempDir.isPrefixOf q = false) :
    q ∈ (cleanupTemporaryFiles e fs tp).1 := by
  simp only [cleanupTemporaryFiles]
  exact removeDirOp_preserve (unlinkOne_preserve (unlinkOne_preserve hq h1) h2) h3

theorem cleanup_removed_only {e : CleanupEnv} {fs : FS} {tp : TemporaryPaths} {q : Path}
    (hq : q ∈ fs) (h : q ∉ (cleanupTemporaryFiles e fs tp).1) :
    q = tp.videoPath ∨ q = tp.audioPath ∨ tp.tempDir.isPrefixOf q = true := by
  by_cases hv : q = tp.videoPath
  · exact Or.inl hv
  by_cases ha : q = tp.audioPath
  · exact Or.inr (Or.inl ha)
  by_cases hd : tp.tempDir.isPrefixOf q = true
  · exact Or.inr (Or.inr hd)
  exact absurd (cleanup_preserve hq hv ha (Bool.not_eq_true _ ▸ hd)) h

/-- C8: cleanup is idempotent — if a first `cleanupTemporaryFiles` pass
returned without error, a second pass on the resulting filesystem (under
any failure environment) performs no deletion, raises no error, and
leaves the filesystem unchanged: the already-removed intermediates and
root directory are skipped by the `existsSync` guards. -/
theorem cleanup_idempotent (e1 e2 : CleanupEnv) (fs : FS) (tp : TemporaryPaths)
    (h : (cleanupTemporaryFiles e1 fs tp).2 = []) :
    cleanupTemporaryFiles e2 (cleanupTemporaryFiles e1 fs tp).1 tp =
      ((cleanupTemporaryFiles e1 fs tp).1, []) := by
  obtain ⟨hv, ha, hd⟩ := cleanup_noerr_absent h
  have h1 : unlinkOne e2 (cleanupTemporaryFiles e1 fs tp).1 tp.videoPath =
      ((cleanupTemporaryFiles e1 fs tp).1, []) := unlinkOne_id_of_absent hv
  have h2 : unlinkOne e2 (cleanupTemporaryFiles e1 fs tp).1 tp.audioPath =
      ((cleanupTemporaryFiles e1 fs tp).1, []) := unlinkOne_id_of_absent ha
  have h3 : removeDirOp e2 (cleanupTemporaryFiles e1 fs tp).1 tp.tempDir =
      ((cleanupTemporaryFiles e1 fs tp).1, []) := removeDirOp_id_of_absent hd
  simp only [cleanupTemporaryFiles] at h1 h2 h3 ⊢
  rw [h1]
  simp only []
  rw [h2]
  simp only []
  rw [h3]
  simp

/-- Concrete workspace paths used to evaluate the theorems. -/
def wsTp : TemporaryPaths :=
  ⟨["tmp", "ws"], ["tmp", "ws", "v.mp4"], ["tmp", "ws", "a.aac"]⟩

/-- Concrete filesystem holding the workspace and an unrelated output file. -/
def wsFs : FS :=
  [["tmp", "ws"], ["tmp", "ws", "v.mp4"], ["tmp", "ws", "a.aac"], ["home", "out.mkv"]]

/-- Environment in which no deletion fails. -/
def noFailEnv : CleanupEnv := ⟨fun _ => false, false⟩

/-- Environment in which every deletion fails. -/
def allFailEnv : CleanupEnv := ⟨fun _ => true, true⟩

/-- Witness for C8: at a concrete workspace the first pass succeeds, and
the second pass returns no error and changes nothing even when every
deletion it would attempt is set to fail. -/
theorem cleanup_idempotent_witness :
    (cleanupTemporaryFiles noFailEnv wsFs wsTp).2 = [] ∧
    cleanupTemporaryFiles allFailEnv (cleanupTemporaryFiles noFailEnv wsFs wsTp).1 wsTp =
      ((cleanupTemporaryFiles noFailEnv wsFs wsTp).1, []) :=
  ⟨by decide, cleanup_idempotent noFailEnv allFailEnv wsFs wsTp (by decide)⟩

/-- The operations `processMedia` can invoke, in invocation order.  The
cancellation actions exist in the vocabulary (a `Readable` can be
destroyed, an ffmpeg command killed) but `processMedia` contains no call
that would emit them. -/
inductive Action
  | transcodeVideo
  | transcodeAudio
  | verifyIntermediatesAct
  | muxAct
  | verifyOutputAct
  | cleanupAct
  | cancelVideoStreamAct
  | cancelAudioStreamAct
deriving DecidableEq

/-- What a failed run surfaces: the primary stage error, or — when the
cleanup pass itself throws — the `CleanupError` carrying the collected
deletion errors. -/
inductive RunError
  | primary (msg : String)
  | cleanupFailure (errs : List String)
deriving DecidableEq

instance {α β : Type} [DecidableEq α] [DecidableEq β] : DecidableEq (Except α β) := fun a b =>
  match a, b with
  | .ok x, .ok y =>
    if h : x = y then .isTrue (by rw [h]) else .isFalse (fun hh => h (Except.ok.inj hh))
  | .error x, .error y =>
    if h : x = y then .isTrue (by rw [h]) else .isFalse (fun hh => h (Except.error.inj hh))
  | .ok _, .error _ => .isFalse (fun hh => Except.noConfusion hh)
  | .error _, .ok _ => .isFalse (fun hh => Except.noConfusion hh)

/-- Result of one `processMedia` run: the settled promise, the final
filesystem, and the operations invoked in order. -/
structure RunOut where
  result : Except RunError Unit
  fs : FS
  trace : List Action
deriving DecidableEq

/-- Environment of one `processMedia` run: whether workspace creation
fails, the outcome reported by each ffmpeg invocation (`none` =
completed; the stage writes its output file exactly when it completes),
and the failure environment of the single cleanup pass. -/
structure MediaEnv where
  mkdirFails : Bool
  videoErr : Option String
  audioErr : Option String
  combineErr : Option String
  cleanupEnv : CleanupEnv

/-- The `catch` block of `processMedia`:
`await this.fileManager.cleanupTemporaryFiles(tempPaths); throw error;`.
Because the `await` precedes the `throw`, a cleanup throw propagates out
of the `catch` block and the primary error is never rethrown: the
surfaced error is the `CleanupError` whenever the cleanup pass collected
any errors, and the primary error only otherwise. -/
def processMediaFail (tp : TemporaryPaths) (e : CleanupEnv) (fs : FS)
    (tr : List Action) (primaryMsg : String) : RunOut :=
  let cl := cleanupTemporaryFiles e fs tp
  { result := .error (if cl.2.isEmpty then .primary primaryMsg else .cleanupFailure cl.2)
    fs := cl.1
    trace := tr ++ [Action.cleanupAct] }

/-- `MediaProcessor.processMedia`: create the workspace, run the two
stage transcodes via `Promise.all` (a stage that completes writes its
intermediate; when the video stage fails, `Promise.all` rejects with its
error while the audio stage keeps running unobserved — modelled as its
write landing before the cleanup pass; when both fail the video error is
taken as the one `Promise.all` rejects with), verify the intermediates,
mux into `finalOutputPath`, verify the output, and clean up; every
failure routes through `processMediaFail`. -/
def processMedia (fm : FileManagerState) (env : MediaEnv) (fs0 : FS)
    (finalOutputPath : Path) : RunOut :=
  if env.mkdirFails then
    { result := .error (.primary "Failed to create temporary paths")
      fs := fs0
      trace := [] }
  else
    let tp := temporaryPathsOf fm
    let fs1 := insertPath fs0 tp.tempDir
    let tr0 := [Action.transcodeVideo, Action.transcodeAudio]
    match env.videoErr, env.audioErr with
    | some m, none =>
      processMediaFail tp env.cleanupEnv (insertPath fs1 tp.audioPath) tr0
        ("Video processing failed: " ++ m)
    | some m, some _ =>
      processMediaFail tp env.cleanupEnv fs1 tr0 ("Video processing failed: " ++ m)
    | none, some m =>
      processMediaFail tp env.cleanupEnv (insertPath fs1 tp.videoPath) tr0
        ("Audio processing failed: " ++ m)
    | none, none =>
      let fs3 := insertPath (insertPath fs1 tp.videoPath) tp.audioPath
      let tr1 := tr0 ++ [Action.verifyIntermediatesAct]
      if tp.videoPath ∈ fs3 then
        if tp.audioPath ∈ fs3 then
          let tr2 := tr1 ++ [Action.muxAct]
          match env.combineErr with
          | some m =>
            processMediaFail tp env.cleanupEnv fs3 tr2 ("Stream combination failed: " ++ m)
          | none =>
            let fs4 := insertPath fs3 finalOutputPath
            let tr3 := tr2 ++ [Action.verifyOutputAct]
            if finalOutputPath ∈ fs4 then
              let cl := cleanupTemporaryFiles env.cleanupEnv fs4 tp
              { result := if cl.2.isEmpty then .ok () else .error (.cleanupFailure cl.2)
                fs := cl.1
                trace := tr3 ++ [Action.cleanupAct] }
            else
              processMediaFail tp env.cleanupEnv fs4 tr3 "Output file not found"
        else
          processMediaFail tp env.cleanupEnv fs3 tr1 "Temporary audio file not found"
      else
        processMediaFail tp env.cleanupEnv fs3 tr1 "Temporary video file not found"

/-- Recognizer for a surfaced `CleanupError`. -/
def isCleanupFailure : Except RunError Unit → Bool
  | .error (.cleanupFailure _) => true
  | _ => false

/-- No deletion fails in this cleanup environment. -/
def noCleanupFailures (e : CleanupEnv) : Prop :=
  (∀ p, e.unlinkFails p = false) ∧ e.rmdirFails = false

theorem tempDir_prefix_video (fm : FileManagerState) :
    (temporaryPathsOf fm).tempDir.isPrefixOf (temporaryPathsOf fm).videoPath = true :=
  List.isPrefixOf_iff_prefix.mpr (List.prefix_append _ _)

theorem tempDir_prefix_audio (fm : FileManagerState) :
    (temporaryPathsOf fm).tempDir.isPrefixOf (temporaryPathsOf fm).audioPath = true :=
  List.isPrefixOf_iff_prefix.mpr (List.prefix_append _ _)

/-- The filesystem the success path of `processMedia` has built when it
reaches the final cleanup: workspace root, both intermediates, and the
muxed output have been created on top of the initial state. -/
def successFs (fm : FileManagerState) (fs0 : FS) (out : Path) : FS :=
  insertPath (insertPath (insertPath (insertPath fs0 (temporaryPathsOf fm).tempDir)
    (temporaryPathsOf fm).videoPath) (temporaryPathsOf fm).audioPath) out

theorem processMedia_ok_eq (fm : FileManagerState) (cl : CleanupEnv) (fs0 : FS)
    (out : Path) :
    processMedia fm ⟨false, none, none, none, cl⟩ fs0 out =
      { result :=
          if (cleanupTemporaryFiles cl (successFs fm fs0 out) (temporaryPathsOf fm)).2.isEmpty
          then Except.ok ()
          else Except.error (.cleanupFailure
            (cleanupTemporaryFiles cl (successFs fm fs0 out) (temporaryPathsOf fm)).2)
        fs := (cleanupTemporaryFiles cl (successFs fm fs0 out) (temporaryPathsOf fm)).1
        trace := [Action.transcodeVideo, Action.transcodeAudio,
          Action.verifyIntermediatesAct, Action.muxAct, Action.verifyOutputAct,
          Action.cleanupAct] } := by
  have hv3 : (temporaryPathsOf fm).videoPath ∈
      insertPath (insertPath (insertPath fs0 (temporaryPathsOf fm).tempDir)
        (temporaryPathsOf fm).videoPath) (temporaryPathsOf fm).audioPath :=
    mem_insertPath_of_mem insertPath_self
  have ha3 : (temporaryPathsOf fm).audioPath ∈
      insertPath (insertPath (insertPath fs0 (temporaryPathsOf fm).tempDir)
        (temporaryPathsOf fm).videoPath) (temporaryPathsOf fm).audioPath :=
    insertPath_self
  have ho4 : out ∈ successFs fm fs0 out := insertPath_self
  simp only [processMedia, successFs] at *
  simp [hv3, ha3, ho4]

/-- C1: for every `processMedia` run that resolves (succeeds), the final
output file exists at the bound output path (assumed, as the workspace
contract requires, not to lie inside the run's root directory), neither
intermediate file nor the workspace root directory still exists, and the
final cleanup removed nothing outside the root directory — in
particular it left the output file intact. -/
theorem processMedia_success_retains_output (fm : FileManagerState) (env : MediaEnv)
    (fs0 : FS) (out : Path)
    (hok : (processMedia fm env fs0 out).result = .ok ())
    (hout : (temporaryPathsOf fm).tempDir.isPrefixOf out = false) :
    out ∈ (processMedia fm env fs0 out).fs ∧
    (temporaryPathsOf fm).videoPath ∉ (processMedia fm env fs0 out).fs ∧
    (temporaryPathsOf fm).audioPath ∉ (processMedia fm env fs0 out).fs ∧
    (temporaryPathsOf fm).tempDir ∉ (processMedia fm env fs0 out).fs ∧
    ∀ q ∈ fs0, q ∉ (processMedia fm env fs0 out).fs →
      (temporaryPathsOf fm).tempDir.isPrefixOf q = true := by
  obtain ⟨mk, ve, ae, ce, cl⟩ := env
  cases mk
  case true =>
    simp [processMedia] at hok
  case false =>
  have hv3 : (temporaryPathsOf fm).videoPath ∈
      insertPath (insertPath (insertPath fs0 (temporaryPathsOf fm).tempDir)
        (temporaryPathsOf fm).videoPath) (temporaryPathsOf fm).audioPath :=
    mem_insertPath_of_mem insertPath_self
  have ha3 : (temporaryPathsOf fm).audioPath ∈
      insertPath (insertPath (insertPath fs0 (temporaryPathsOf fm).tempDir)
        (temporaryPathsOf fm).videoPath) (temporaryPathsOf fm).audioPath :=
    insertPath_self
  cases ve
  case some m =>
    cases ae <;> simp [processMedia, processMediaFail] at hok
  case none =>
  cases ae
  case some m =>
    simp [processMedia, processMediaFail] at hok
  case none =>
  cases ce
  case some m =>
    simp only [processMedia, processMediaFail] at hok
    rw [if_pos hv3, if_pos ha3] at hok
    simp at hok
  case none =>
  rw [processMedia_ok_eq fm cl fs0 out] at hok ⊢
  simp only [] at hok ⊢
  cases hemp : (cleanupTemporaryFiles cl (successFs fm fs0 out) (temporaryPathsOf fm)).2.isEmpty
  case false =>
    rw [hemp] at hok
    simp at hok
  case true =>
  have hnil : (cleanupTemporaryFiles cl (successFs fm fs0 out) (temporaryPathsOf fm)).2 = [] :=
    List.isEmpty_iff.mp hemp
  obtain ⟨habsv, habsa, habsd⟩ := cleanup_noerr_absent hnil
  have hne_v : out ≠ (temporaryPathsOf fm).videoPath := by
    intro hh
    rw [hh, tempDir_prefix_video fm] at hout
    exact Bool.true_eq_false.mp hout
  have hne_a : out ≠ (temporaryPathsOf fm).audioPath := by
    intro hh
    rw [hh, tempDir_prefix_audio fm] at hout
    exact Bool.true_eq_false.mp hout
  have ho4 : out ∈ successFs fm fs0 out := insertPath_self
  refine ⟨cleanup_preserve ho4 hne_v hne_a hout, habsv, habsa, habsd, ?_⟩
  intro q hq hq'
  have hq4 : q ∈ successFs fm fs0 out :=
    mem_insertPath_of_mem (mem_insertPath_of_mem (mem_insertPath_of_mem
      (mem_insertPath_of_mem hq)))
  rcases cleanup_removed_only hq4 hq' with hh | hh | hh
  · rw [hh]
    exact tempDir_prefix_video fm
  · rw [hh]
    exact tempDir_prefix_audio fm
  · exact hh

/-- Concrete `FileManager` used to evaluate the theorems. -/
def fmW : FileManagerState := ⟨"ytdownload", 0, ["tmp"]⟩

/-- Concrete environment of a fully successful run. -/
def okEnvW : MediaEnv := ⟨false, none, none, none, noFailEnv⟩

/-- Concrete bound output path, outside the workspace. -/
def outW : Path := ["home", "out.mkv"]

/-- Witness for C1 at a concrete successful run on an empty filesystem. -/
theorem processMedia_success_retains_output_witness :
    ((processMedia fmW okEnvW [] outW).result = .ok ()) ∧
    ((temporaryPathsOf fmW).tempDir.isPrefixOf outW = false) ∧
    (outW ∈ (processMedia fmW okEnvW [] outW).fs ∧
     (temporaryPathsOf fmW).videoPath ∉ (processMedia fmW okEnvW [] outW).fs ∧
     (temporaryPathsOf fmW).audioPath ∉ (processMedia fmW okEnvW [] outW).fs ∧
     (temporaryPathsOf fmW).tempDir ∉ (processMedia fmW okEnvW [] outW).fs ∧
     ∀ q ∈ ([] : FS), q ∉ (processMedia fmW okEnvW [] outW).fs →
       (temporaryPathsOf fmW).tempDir.isPrefixOf q = true) :=
  ⟨by decide, by decide,
    processMedia_success_retains_output fmW okEnvW [] outW (by decide) (by decide)⟩

theorem tempDir_ne_video (fm : FileManagerState) :
    (temporaryPathsOf fm).tempDir ≠ (temporaryPathsOf fm).videoPath := by
  intro h
  have := congrArg List.length h
  simp [temporaryPathsOf] at this

theorem tempDir_ne_audio (fm : FileManagerState) :
    (temporaryPathsOf fm).tempDir ≠ (temporaryPathsOf fm).audioPath := by
  intro h
  have := congrArg List.length h
  simp [temporaryPathsOf] at this

theorem ne_video_of_not_under (fm : FileManagerState) {out : Path}
    (hout : (temporaryPathsOf fm).tempDir.isPrefixOf out = false) :
    out ≠ (temporaryPathsOf fm).videoPath := by
  intro hh
  rw [hh, tempDir_prefix_video fm] at hout
  exact Bool.true_eq_false.mp hout

theorem ne_audio_of_not_under (fm : FileManagerState) {out : Path}
    (hout : (temporaryPathsOf fm).tempDir.isPrefixOf out = false) :
    out ≠ (temporaryPathsOf fm).audioPath := by
  intro hh
  rw [hh, tempDir_prefix_audio fm] at hout
  exact Bool.true_eq_false.mp hout

theorem cleanup_noFailures_noerr {e : CleanupEnv} {fs : FS} {tp : TemporaryPaths}
    (he : noCleanupFailures e) : (cleanupTemporaryFiles e fs tp).2 = [] := by
  have hu : ∀ (fsx : FS) (p : Path), (unlinkOne e fsx p).2 = [] := by
    intro fsx p
    unfold unlinkOne
    split
    · rw [he.1 p]
      rw [if_neg Bool.false_ne_true]
    · rfl
  have hd : ∀ (fsx : FS), (removeDirOp e fsx tp.tempDir).2 = [] := by
    intro fsx
    unfold removeDirOp
    split
    · rw [he.2]
      rw [if_neg Bool.false_ne_true]
      split <;> rfl
    · rfl
  simp only [cleanupTemporaryFiles]
  rw [hu, hu, hd]
  rfl

theorem cleanup_rmdirFails_err {e : CleanupEnv} {fs : FS} {tp : TemporaryPaths}
    (hmem : tp.tempDir ∈ fs) (hnev : tp.tempDir ≠ tp.videoPath)
    (hnea : tp.tempDir ≠ tp.audioPath) (hf : e.rmdirFails = true) :
    (cleanupTemporaryFiles e fs tp).2 ≠ [] := by
  have hmem2 : tp.tempDir ∈ (unlinkOne e (unlinkOne e fs tp.videoPath).1 tp.audioPath).1 :=
    unlinkOne_preserve (unlinkOne_preserve hmem hnev) hnea
  have h3 : (removeDirOp e (unlinkOne e (unlinkOne e fs tp.videoPath).1 tp.audioPath).1
      tp.tempDir).2 =
      ["Failed to remove temporary directory " ++ String.intercalate "/" tp.tempDir] := by
    unfold removeDirOp
    rw [if_pos hmem2, if_pos hf]
  simp only [cleanupTemporaryFiles]
  rw [h3]
  simp

theorem processMediaFail_result_primary {tp : TemporaryPaths} {e : CleanupEnv}
    {fs : FS} {tr : List Action} {m : String}
    (h : (cleanupTemporaryFiles e fs tp).2 = []) :
    (processMediaFail tp e fs tr m).result = .error (.primary m) := by
  simp [processMediaFail, h]

theorem processMediaFail_result_cleanup {tp : TemporaryPaths} {e : CleanupEnv}
    {fs : FS} {tr : List Action} {m : String}
    (h : (cleanupTemporaryFiles e fs tp).2 ≠ []) :
    isCleanupFailure (processMediaFail tp e fs tr m).result = true := by
  have hemp : (cleanupTemporaryFiles e fs tp).2.isEmpty = false := by
    simp [List.isEmpty_iff, h]
  simp [processMediaFail, hemp, isCleanupFailure]

set_option maxHeartbeats 1000000 in
/-- C10: on the success path, `processMedia` runs cleanup only after the
final output has been muxed and its existence verified (the trace ends
`... verifyOutput, cleanup`), and if that final cleanup pass throws a
`CleanupError` the whole run rejects with it — even though the verified
output file is still on disk. -/
theorem processMedia_success_cleanup_error_rejects (fm : FileManagerState)
    (cl : CleanupEnv) (fs0 : FS) (out : Path)
    (hout : (temporaryPathsOf fm).tempDir.isPrefixOf out = false)
    (hfail : cl.rmdirFails = true) :
    isCleanupFailure (processMedia fm ⟨false, none, none, none, cl⟩ fs0 out).result = true ∧
    out ∈ (processMedia fm ⟨false, none, none, none, cl⟩ fs0 out).fs ∧
    (processMedia fm ⟨false, none, none, none, cl⟩ fs0 out).trace =
      [Action.transcodeVideo, Action.transcodeAudio, Action.verifyIntermediatesAct,
       Action.muxAct, Action.verifyOutputAct, Action.cleanupAct] := by
  have hmem0 : (temporaryPathsOf fm).tempDir ∈ successFs fm fs0 out := by
    unfold successFs
    exact mem_insertPath_of_mem (mem_insertPath_of_mem (mem_insertPath_of_mem
      insertPath_self))
  have herr : (cleanupTemporaryFiles cl (successFs fm fs0 out) (temporaryPathsOf fm)).2 ≠ [] :=
    cleanup_rmdirFails_err hmem0 (tempDir_ne_video fm) (tempDir_ne_audio fm) hfail
  have hemp : (cleanupTemporaryFiles cl (successFs fm fs0 out) (temporaryPathsOf fm)).2.isEmpty
      = false := by
    simp [List.isEmpty_iff, herr]
  have ho4 : out ∈ successFs fm fs0 out := insertPath_self
  rw [processMedia_ok_eq fm cl fs0 out]
  refine ⟨?_, ?_, rfl⟩
  · simp [hemp, isCleanupFailure]
  · exact cleanup_preserve ho4 (ne_video_of_not_under fm hout)
      (ne_audio_of_not_under fm hout) hout

/-- Cleanup environment in which only the directory removal fails. -/
def rmdirFailEnv : CleanupEnv := ⟨fun _ => false, true⟩

/-- Witness for C10 at a concrete run whose only failure is the final
directory removal: the run rejects with a `CleanupError` while the
verified output file exists. -/
theorem processMedia_success_cleanup_error_rejects_witness :
    ((temporaryPathsOf fmW).tempDir.isPrefixOf outW = false) ∧
    (rmdirFailEnv.rmdirFails = true) ∧
    (isCleanupFailure (processMedia fmW ⟨false, none, none, none, rmdirFailEnv⟩ [] outW).result
        = true ∧
     outW ∈ (processMedia fmW ⟨false, none, none, none, rmdirFailEnv⟩ [] outW).fs ∧
     (processMedia fmW ⟨false, none, none, none, rmdirFailEnv⟩ [] outW).trace =
       [Action.transcodeVideo, Action.transcodeAudio, Action.verifyIntermediatesAct,
        Action.muxAct, Action.verifyOutputAct, Action.cleanupAct]) :=
  ⟨by decide, rfl,
    processMedia_success_cleanup_error_rejects fmW rmdirFailEnv [] outW (by decide) rfl⟩

/-- C3 (amended): when a primary stage failure occurs, the primary error
is surfaced exactly when the cleanup pass performed in the `catch` block
raises no error of its own; when that cleanup pass fails (here: the
directory removal throws), the `CleanupError` is surfaced in place of
the primary error, because `processMedia`'s `catch` block awaits cleanup
before rethrowing. -/
theorem processMedia_primary_error_surfacing (fm : FileManagerState)
    (ae ce : Option String) (cl : CleanupEnv) (fs0 : FS) (out : Path) (m : String) :
    (noCleanupFailures cl →
      (processMedia fm ⟨false, some m, ae, ce, cl⟩ fs0 out).result =
        .error (.primary ("Video processing failed: " ++ m))) ∧
    (cl.rmdirFails = true →
      isCleanupFailure (processMedia fm ⟨false, some m, ae, ce, cl⟩ fs0 out).result = true) := by
  cases ae
  case none =>
    have heq : processMedia fm ⟨false, some m, none, ce, cl⟩ fs0 out =
        processMediaFail (temporaryPathsOf fm) cl
          (insertPath (insertPath fs0 (temporaryPathsOf fm).tempDir)
            (temporaryPathsOf fm).audioPath)
          [Action.transcodeVideo, Action.transcodeAudio]
          ("Video processing failed: " ++ m) := rfl
    rw [heq]
    constructor
    · intro hno
      exact processMediaFail_result_primary (cleanup_noFailures_noerr hno)
    · intro hf
      exact processMediaFail_result_cleanup (cleanup_rmdirFails_err
        (mem_insertPath_of_mem insertPath_self) (tempDir_ne_video fm)
        (tempDir_ne_audio fm) hf)
  case some m2 =>
    have heq : processMedia fm ⟨false, some m, some m2, ce, cl⟩ fs0 out =
        processMediaFail (temporaryPathsOf fm) cl
          (insertPath fs0 (temporaryPathsOf fm).tempDir)
          [Action.transcodeVideo, Action.transcodeAudio]
          ("Video processing failed: " ++ m) := rfl
    rw [heq]
    constructor
    · intro hno
      exact processMediaFail_result_primary (cleanup_noFailures_noerr hno)
    · intro hf
      exact processMediaFail_result_cleanup (cleanup_rmdirFails_err
        insertPath_self (tempDir_ne_video fm) (tempDir_ne_audio fm) hf)

/-- Witness for C3 (amended) at a concrete failing run whose cleanup
pass succeeds: the primary video error is what surfaces. -/
theorem processMedia_primary_error_surfacing_witness :
    (noCleanupFailures noFailEnv →
      (processMedia fmW ⟨false, some "boom", none, none, noFailEnv⟩ [] outW).result =
        .error (.primary ("Video processing failed: " ++ "boom"))) ∧
    (noFailEnv.rmdirFails = true →
      isCleanupFailure
        (processMedia fmW ⟨false, some "boom", none, none, noFailEnv⟩ [] outW).result = true) :=
  processMedia_primary_error_surfacing fmW none none noFailEnv [] outW "boom"

/-- Concrete environment of a run whose video transcode fails and whose
cleanup pass also fails everywhere. -/
def failEnvW : MediaEnv := ⟨false, some "boom", none, none, allFailEnv⟩

/-- Counterexample to C3 as stated: in this run a primary video failure
occurs and the cleanup pass performed while handling it also fails; the
surfaced error is the `CleanupError`, not the primary video error — the
primary error is dropped, not reported first. -/
theorem processMedia_cleanup_masks_primary_cex :
    failEnvW.videoErr = some "boom" ∧
    isCleanupFailure (processMedia fmW failEnvW [] outW).result = true ∧
    (processMedia fmW failEnvW [] outW).result ≠
      .error (.primary ("Video processing failed: " ++ "boom")) := by
  refine ⟨rfl, by decide, by decide⟩

/-- C4 (amended): when the video transcode fails, no mux step is ever
attempted in that run — but the sibling audio stream is not canceled:
`processMedia` performs no cancellation operation of any kind (the
trace never contains a cancel action, for any run whatsoever). -/
theorem processMedia_videoErr_no_mux_no_cancel (fm : FileManagerState) (env : MediaEnv)
    (fs0 : FS) (out : Path) (m : String) (hv : env.videoErr = some m) :
    Action.muxAct ∉ (processMedia fm env fs0 out).trace ∧
    Action.cancelAudioStreamAct ∉ (processMedia fm env fs0 out).trace ∧
    Action.cancelVideoStreamAct ∉ (processMedia fm env fs0 out).trace := by
  obtain ⟨mk, ve, ae, ce, cl⟩ := env
  simp only [] at hv
  subst hv
  cases mk
  case true =>
    simp [processMedia]
  case false =>
    cases ae <;> simp [processMedia, processMediaFail]

/-- Witness for C4 (amended) at a concrete run with a failed video
transcode. -/
theorem processMedia_videoErr_no_mux_no_cancel_witness :
    failEnvW.videoErr = some "boom" ∧
    (Action.muxAct ∉ (processMedia fmW failEnvW [] outW).trace ∧
     Action.cancelAudioStreamAct ∉ (processMedia fmW failEnvW [] outW).trace ∧
     Action.cancelVideoStreamAct ∉ (processMedia fmW failEnvW [] outW).trace) :=
  ⟨rfl, processMedia_videoErr_no_mux_no_cancel fmW failEnvW [] outW "boom" rfl⟩

/-- Concrete environment whose video transcode fails while the audio
transcode completes, with a clean cleanup pass. -/
def videoFailEnvW : MediaEnv := ⟨false, some "vboom", none, none, noFailEnv⟩

/-- Counterexample to C4 as stated: in this run the video transcode
fails; the audio transcode still runs to completion (its transcode was
invoked and its intermediate file got written before cleanup) and no
cancellation of it ever happens — the trace contains no cancel action.
The no-mux half of the claim does hold. -/
theorem processMedia_no_cancellation_cex :
    videoFailEnvW.videoErr = some "vboom" ∧
    Action.transcodeAudio ∈ (processMedia fmW videoFailEnvW [] outW).trace ∧
    Action.cancelAudioStreamAct ∉ (processMedia fmW videoFailEnvW [] outW).trace ∧
    Action.muxAct ∉ (processMedia fmW videoFailEnvW [] outW).trace := by
  refine ⟨rfl, by decide, by decide, by decide⟩

/-- The `DownloadProgress` record passed to the `onProgress` callback by
a progress-tracking stream in `YoutubeStreamManager`. -/
structure DownloadProgress where
  downloadedBytes : Nat
  totalBytes : Nat
  percentage : ℚ
deriving DecidableEq

/-- `(downloadedBytes / totalBytes) * 100`.  (In JavaScript a zero
`totalBytes` yields NaN; rational division yields 0 there — every run
considered by the theorems below has a positive total.) -/
def mkPercentage (d total : Nat) : ℚ :=
  (d : ℚ) / (total : ℚ) * 100

/-- Running totals of a chunk sequence starting from `acc` — the
successive values of the `downloadedBytes += chunk.length` closure
variable of one stream. -/
def cumulFrom (acc : Nat) : List Nat → List Nat
  | [] => []
  | c :: t => (acc + c) :: cumulFrom (acc + c) t

/-- The events one `createProgressTrackingStream` stream delivers for
its chunk sequence: its **own** `downloadedBytes` counter starts at 0
(`let downloadedBytes = 0` inside the function, so each of the two
streams of a run gets a fresh counter), while `totalBytes` is the shared
value passed in by `createStreams`. -/
def streamEvents (total : Nat) (chunks : List Nat) : List DownloadProgress :=
  (cumulFrom 0 chunks).map (fun d => ⟨d, total, mkPercentage d total⟩)

/-- `createStreams`' shared total:
`parseInt(videoFormat.contentLength || '0') + parseInt(audioFormat.contentLength || '0')`
— a missing content length counts as 0. -/
def createStreamsTotal (videoLen audioLen : Option Nat) : Nat :=
  videoLen.getD 0 + audioLen.getD 0

/-- Interleaving of two event sequences under a schedule: `true` emits
the next pending video event, `false` the next pending audio event; an
exhausted schedule flushes the remainder in order.  The schedule models
the arbitrary arrival order of the two concurrent download streams'
`data` events at the single `onProgress` callback. -/
def interleave {α : Type} : List Bool → List α → List α → List α
  | [], xs, ys => xs ++ ys
  | true :: r, x :: xs, ys => x :: interleave r xs ys
  | false :: r, xs, y :: ys => y :: interleave r xs ys
  | true :: r, [], ys => interleave r [] ys
  | false :: r, xs, [] => interleave r xs []

/-- All `downloading`-stage events one run delivers to the progress
sink: the two streams' event sequences, interleaved by the schedule,
each stream accumulating only its own bytes against the shared total. -/
def downloadingEvents (sched : List Bool) (videoLen audioLen : Option Nat)
    (vchunks achunks : List Nat) : List DownloadProgress :=
  interleave sched
    (streamEvents (createStreamsTotal videoLen audioLen) vchunks)
    (streamEvents (createStreamsTotal videoLen audioLen) achunks)

/-- Boolean check that a list of counter values never decreases. -/
def nonDecreasing : List Nat → Bool
  | [] => true
  | [_] => true
  | a :: b :: t => decide (a ≤ b) && nonDecreasing (b :: t)

theorem mem_interleave {α : Type} {x : α} {s : List Bool} {xs ys : List α}
    (h : x ∈ interleave s xs ys) : x ∈ xs ∨ x ∈ ys := by
  induction s generalizing xs ys with
  | nil =>
    simp only [interleave] at h
    exact List.mem_append.mp h
  | cons b r ih =>
    cases b
    case true =>
      cases xs with
      | nil =>
        simp only [interleave] at h
        exact ih h
      | cons a as =>
        simp only [interleave, List.mem_cons] at h
        rcases h with rfl | h
        · exact Or.inl (List.mem_cons_self _ _)
        · rcases ih h with h1 | h2
          · exact Or.inl (List.mem_cons_of_mem _ h1)
          · exact Or.inr h2
    case false =>
      cases ys with
      | nil =>
        simp only [interleave] at h
        rcases ih h with h1 | h2
        · exact Or.inl h1
        · exact Or.inr h2
      | cons a as =>
        simp only [interleave, List.mem_cons] at h
        rcases h with rfl | h
        · exact Or.inr (List.mem_cons_self _ _)
        · rcases ih h with h1 | h2
          · exact Or.inl h1
          · exact Or.inr (List.mem_cons_of_mem _ h2)

theorem cumulFrom_le {chunks : List Nat} : ∀ {acc x : Nat},
    x ∈ cumulFrom acc chunks → x ≤ acc + chunks.sum := by
  induction chunks with
  | nil =>
    intro acc x h
    simp [cumulFrom] at h
  | cons c t ih =>
    intro acc x h
    simp only [cumulFrom, List.mem_cons] at h
    rcases h with rfl | h
    · simp only [List.sum_cons]
      omega
    · have := ih h
      simp only [List.sum_cons]
      omega

theorem streamEvents_mem {total : Nat} {chunks : List Nat} {e : DownloadProgress}
    (h : e ∈ streamEvents total chunks) :
    e.totalBytes = total ∧ e.downloadedBytes ≤ chunks.sum := by
  simp only [streamEvents, List.mem_map] at h
  obtain ⟨d, hd, rfl⟩ := h
  exact ⟨rfl, by simpa using cumulFrom_le hd⟩

theorem nonDecreasing_cons_cumulFrom : ∀ (t : List Nat) (acc : Nat),
    nonDecreasing (acc :: cumulFrom acc t) = true := by
  intro t
  induction t with
  | nil =>
    intro acc
    rfl
  | cons c r ih =>
    intro acc
    show nonDecreasing (acc :: (acc + c) :: cumulFrom (acc + c) r) = true
    have h2 := ih (acc + c)
    simp only [nonDecreasing] at h2 ⊢
    rw [h2, decide_eq_true (Nat.le_add_right acc c)]
    rfl

theorem nonDecreasing_cumulFrom (chunks : List Nat) (acc : Nat) :
    nonDecreasing (cumulFrom acc chunks) = true := by
  cases chunks with
  | nil => rfl
  | cons c t => exact nonDecreasing_cons_cumulFrom t (acc + c)

/-- C9 (amended): within one single progress-tracking stream the
reported `downloadedBytes` values are monotonically non-decreasing (the
counter only ever grows by chunk lengths); monotonicity across the whole
`downloading` stage — the interleaving of both streams — fails, see the
counterexample. -/
theorem streamEvents_monotone (total : Nat) (chunks : List Nat) :
    nonDecreasing ((streamEvents total chunks).map (fun e => e.downloadedBytes)) = true := by
  have hcomp : ((fun e : DownloadProgress => e.downloadedBytes) ∘
      fun d => (⟨d, total, mkPercentage d total⟩ : DownloadProgress)) = id := rfl
  have hmap : (streamEvents total chunks).map (fun e => e.downloadedBytes) =
      cumulFrom 0 chunks := by
    rw [streamEvents, List.map_map, hcomp, List.map_id]
  rw [hmap]
  exact nonDecreasing_cumulFrom chunks 0

/-- Counterexample to C9 as stated: both streams' events carry the same
`downloading` stage and are delivered to the same sink; with the video
stream delivering 500 bytes before the audio stream's first 200-byte
chunk, the stage's event sequence reports `completedUnits` 500 and then
200 — a later event of the stage with a smaller value. -/
theorem downloading_stage_not_monotone_cex :
    nonDecreasing ((downloadingEvents [true, false] (some 1000) (some 200)
      [500] [200]).map (fun e => e.downloadedBytes)) = false := by
  decide

/-- C2 (amended): the two streams of a run do share one `totalBytes` —
the sum of both descriptors' lengths, missing lengths taken as 0 — but
each has its **own** cumulative `downloadedBytes` counter.  In the
1000-byte-video / 200-byte-audio scenario every `downloading` event
reports `totalUnits = 1200` while `completedUnits` never exceeds 1000,
so no event (in particular not the final one) reports
`completedUnits = 1200, percentage = 100`. -/
theorem downloadingEvents_shared_total_own_counter (sched : List Bool)
    (vchunks achunks : List Nat)
    (hv : vchunks.sum ≤ 1000) (ha : achunks.sum ≤ 200) :
    ∀ e ∈ downloadingEvents sched (some 1000) (some 200) vchunks achunks,
      e.totalBytes = 1200 ∧ e.downloadedBytes ≤ 1000 := by
  intro e he
  simp only [downloadingEvents] at he
  rcases mem_interleave he with h | h
  · obtain ⟨ht, hd⟩ := streamEvents_mem h
    exact ⟨ht, le_trans hd hv⟩
  · obtain ⟨ht, hd⟩ := streamEvents_mem h
    exact ⟨ht, le_trans hd (le_trans ha (by norm_num))⟩

/-- Witness for C2 (amended) at the claim's own scenario, video event
first. -/
theorem downloadingEvents_shared_total_own_counter_witness :
    ([1000] : List Nat).sum ≤ 1000 ∧ ([200] : List Nat).sum ≤ 200 ∧
    ((⟨1000, 1200, mkPercentage 1000 1200⟩ : DownloadProgress) ∈
      downloadingEvents [true] (some 1000) (some 200) [1000] [200]) ∧
    ((⟨1000, 1200, mkPercentage 1000 1200⟩ : DownloadProgress).totalBytes = 1200 ∧
     (⟨1000, 1200, mkPercentage 1000 1200⟩ : DownloadProgress).downloadedBytes ≤ 1000) := by
  have hmem : (⟨1000, 1200, mkPercentage 1000 1200⟩ : DownloadProgress) ∈
      downloadingEvents [true] (some 1000) (some 200) [1000] [200] := by
    simp [downloadingEvents, streamEvents, createStreamsTotal, cumulFrom, interleave]
  exact ⟨by decide, by decide, hmem,
    downloadingEvents_shared_total_own_counter [true] [1000] [200] (by decide) (by decide)
      ⟨1000, 1200, mkPercentage 1000 1200⟩ hmem⟩

/-- Counterexample to C2 as stated: in the complete 1000/200 run, under
either order of the two streams' final events, no `downloading` event
reports `completedUnits = 1200, totalUnits = 1200, percentage = 100`;
with the audio event arriving last the final event of the stage is
`200 / 1200`. -/
theorem downloading_final_event_cex :
    (downloadingEvents [true, false] (some 1000) (some 200) [1000] [200]).getLast? =
      some ⟨200, 1200, mkPercentage 200 1200⟩ ∧
    (⟨1200, 1200, (100 : ℚ)⟩ : DownloadProgress) ∉
      downloadingEvents [true, false] (some 1000) (some 200) [1000] [200] ∧
    (⟨1200, 1200, (100 : ℚ)⟩ : DownloadProgress) ∉
      downloadingEvents [false, true] (some 1000) (some 200) [1000] [200] := by
  refine ⟨rfl, ?_, ?_⟩ <;>
    simp [downloadingEvents, streamEvents, createStreamsTotal, cumulFrom, interleave,
      DownloadProgress.mk.injEq]

/-- `ProcessingOptions` of `MediaProcessor` — every field optional. -/
structure ProcessingOptions where
  videoCodec : Option String := none
  audioCodec : Option String := none
  outputFormat : Option String := none
  videoBitrate : Option String := none
  audioBitrate : Option String := none
  fps : Option Nat := none

/-- JavaScript `value || dflt` on an optional string: `undefined` and
the empty string are falsy. -/
def jsOrStr (o : Option String) (dflt : String) : String :=
  match o with
  | none => dflt
  | some s => if s = "" then dflt else s

/-- JavaScript `value || dflt` on an optional number: `undefined` and 0
are falsy. -/
def jsOrNat (o : Option Nat) (dflt : Nat) : Nat :=
  match o with
  | none => dflt
  | some n => if n = 0 then dflt else n

/-- The parameters `processVideoStream` hands the ffmpeg backend. -/
structure VideoCommand where
  videoCodec : String
  videoBitrate : String
  fps : Nat
deriving DecidableEq

/-- `processVideoStream`'s invocation of the backend:
`.videoCodec(options.videoCodec || 'copy')`,
`.videoBitrate(options.videoBitrate || '1000k')`, `.fps(options.fps || 30)`. -/
def buildVideoCommand (o : ProcessingOptions) : VideoCommand :=
  ⟨jsOrStr o.videoCodec "copy", jsOrStr o.videoBitrate "1000k", jsOrNat o.fps 30⟩

/-- The parameters `processAudioStream` hands the ffmpeg backend. -/
structure AudioCommand where
  audioCodec : String
  audioBitrate : String
deriving DecidableEq

/-- `processAudioStream`'s invocation of the backend:
`.audioCodec(options.audioCodec || 'aac')`,
`.audioBitrate(options.audioBitrate || '128k')`. -/
def buildAudioCommand (o : ProcessingOptions) : AudioCommand :=
  ⟨jsOrStr o.audioCodec "aac", jsOrStr o.audioBitrate "128k"⟩

/-- C5 (amended): with no explicit codec override supplied, the video
transcode invokes the backend with the "copy" codec, but the audio
transcode defaults to "aac" — a re-encode, not a codec copy. -/
theorem transcode_codec_defaults (o : ProcessingOptions) :
    (o.videoCodec = none → (buildVideoCommand o).videoCodec = "copy") ∧
    (o.audioCodec = none → (buildAudioCommand o).audioCodec = "aac") := by
  constructor <;> intro h <;>
    simp [buildVideoCommand, buildAudioCommand, jsOrStr, h]

/-- Witness for C5 (amended) at the empty options record. -/
theorem transcode_codec_defaults_witness :
    (buildVideoCommand {}).videoCodec = "copy" ∧
    (buildAudioCommand {}).audioCodec = "aac" :=
  ⟨(transcode_codec_defaults {}).1 rfl, (transcode_codec_defaults {}).2 rfl⟩

/-- Counterexample to C5 as stated: with no codec override at all, the
audio variant selects "aac" — not the "copy" codec the claim asserts for
both tracks. -/
theorem audio_codec_default_not_copy_cex :
    ({} : ProcessingOptions).audioCodec = none ∧
    (buildAudioCommand {}).audioCodec = "aac" ∧
    (buildAudioCommand {}).audioCodec ≠ "copy" := by
  refine ⟨rfl, rfl, by decide⟩

/-- The side-effect vocabulary `validateUrl` could in principle use. -/
inductive IOCall
  | network
  | filesystem
deriving DecidableEq

/-- A character accepted by the JavaScript regex `.` (anything except a
line terminator). -/
def jsDot (c : Char) : Bool :=
  !(c = '\n' || c = '\r' || c = '\u2028' || c = '\u2029')

/-- Matcher for the `.+$` tail of the pattern: non-empty and every
character acceptable to `.` (JavaScript `$` without the `m` flag matches
only at the very end of the input). -/
def dotPlus (cs : List Char) : Bool :=
  !cs.isEmpty && cs.all jsDot

/-- The twelve literal lead strings
`^(https?://)?(www\.)?(youtube\.com|youtu\.be)/` can match. -/
def youtubeLeads : List String :=
  ["https://", "http://", ""].flatMap fun proto =>
    ["www.", ""].flatMap fun w =>
      ["youtube.com/", "youtu.be/"].map fun host => proto ++ w ++ host

/-- `youtubeRegex.test(url)` for
`/^(https?:\/\/)?(www\.)?(youtube\.com|youtu\.be)\/.+$/`: some lead
alternative is a literal prefix of the url and the remainder matches
`.+$`. -/
def youtubeRegexTest (url : String) : Bool :=
  youtubeLeads.any fun lead =>
    lead.data.isPrefixOf url.data && dotPlus (url.data.drop lead.data.length)

/-- What a `validateUrl` call produces: its return-or-throw outcome and
the I/O calls its body performed. -/
structure ValidateResult where
  result : Except String Bool
  calls : List IOCall
deriving DecidableEq

/-- `YoutubeStreamManager.validateUrl`: `if (!url) throw ...` — the
empty string is falsy, so it throws — otherwise the result of the regex
test; the body performs no network or filesystem call. -/
def validateUrl (url : String) : ValidateResult :=
  if url = "" then ⟨.error "URL cannot be empty or undefined", []⟩
  else ⟨.ok (youtubeRegexTest url), []⟩

/-- C6 (amended): every non-empty identifier failing the accepted URL
shape makes `validateUrl` return `false` having performed no network or
filesystem call; the empty string — which also fails the shape — makes
it throw instead of returning false (likewise without any I/O). -/
theorem validateUrl_rejects_without_io (url : String) (h1 : url ≠ "")
    (h2 : youtubeRegexTest url = false) :
    validateUrl url = ⟨.ok false, []⟩ ∧
    validateUrl "" = ⟨.error "URL cannot be empty or undefined", []⟩ := by
  constructor
  · simp [validateUrl, h1, h2]
  · rfl

/-- Witness for C6 (amended) at a non-YouTube URL. -/
theorem validateUrl_rejects_without_io_witness :
    ("https://example.com" ≠ "") ∧
    (youtubeRegexTest "https://example.com" = false) ∧
    (validateUrl "https://example.com" = ⟨.ok false, []⟩ ∧
     validateUrl "" = ⟨.error "URL cannot be empty or undefined", []⟩) :=
  ⟨by decide, by decide,
    validateUrl_rejects_without_io "https://example.com" (by decide) (by decide)⟩

/-- Counterexample to C6 as stated: the empty string fails the accepted
URL shape, yet `validateUrl` does not return false on it — it throws. -/
theorem validateUrl_empty_throws_cex :
    youtubeRegexTest "" = false ∧
    validateUrl "" = ⟨.error "URL cannot be empty or undefined", []⟩ ∧
    (validateUrl "").result ≠ .ok false := by
  refine ⟨by decide, rfl, by decide⟩

/-- `YoutubeDownloader`: its constructor creates the one `FileManager`
the instance ever uses, so `Date.now()` is sampled exactly once, at
construction. -/
structure YoutubeDownloaderState where
  fileManager : FileManagerState

/-- `new YoutubeDownloader()` at construction time `constructionTime`:
`this.fileManager = new FileManager()` with the default prefix. -/
def mkYoutubeDownloader (constructionTime : Nat) (tmpdir : Path) :
    YoutubeDownloaderState :=
  ⟨⟨"ytdownload", constructionTime, tmpdir⟩⟩

/-- The workspace root a `downloadVideo` run starting at `runTime` gets:
`processMedia` calls `createTemporaryPaths`, which derives the directory
solely from the `FileManager`'s construction-time `baseTempDir` — the
run's own start time is never consulted. -/
def workspaceRootForRun (d : YoutubeDownloaderState) (_runTime : Nat) : Path :=
  baseTempDir d.fileManager

theorem digitChar_injOn {a b : Nat} (ha : a < 10) (hb : b < 10)
    (h : Nat.digitChar a = Nat.digitChar b) : a = b := by
  have key : ∀ x y : Fin 10, Nat.digitChar x.val = Nat.digitChar y.val → x = y := by
    decide
  have := key ⟨a, ha⟩ ⟨b, hb⟩ h
  exact congrArg Fin.val this

theorem map_digitChar_inj : ∀ {l1 l2 : List Nat}, (∀ x ∈ l1, x < 10) →
    (∀ x ∈ l2, x < 10) → l1.map Nat.digitChar = l2.map Nat.digitChar → l1 = l2 := by
  intro l1
  induction l1 with
  | nil =>
    intro l2 _ _ h
    cases l2 with
    | nil => rfl
    | cons b s => simp at h
  | cons a t ih =>
    intro l2 h1 h2 h
    cases l2 with
    | nil => simp at h
    | cons b s =>
      simp only [List.map_cons, List.cons.injEq] at h
      have hab : a = b :=
        digitChar_injOn (h1 a (List.mem_cons_self _ _)) (h2 b (List.mem_cons_self _ _)) h.1
      subst hab
      rw [ih (fun x hx => h1 x (List.mem_cons_of_mem _ hx))
        (fun x hx => h2 x (List.mem_cons_of_mem _ hx)) h.2]

theorem natDecString_inj {m n : Nat} (hm : 0 < m) (hn : 0 < n)
    (h : natDecString m = natDecString n) : m = n := by
  unfold natDecString at h
  rw [if_neg (Nat.pos_iff_ne_zero.mp hm), if_neg (Nat.pos_iff_ne_zero.mp hn)] at h
  have hl : (Nat.digits 10 m).reverse.map Nat.digitChar =
      (Nat.digits 10 n).reverse.map Nat.digitChar := congrArg String.data h
  have hb1 : ∀ x ∈ (Nat.digits 10 m).reverse, x < 10 := by
    intro x hx
    exact Nat.digits_lt_base (by norm_num) (List.mem_reverse.mp hx)
  have hb2 : ∀ x ∈ (Nat.digits 10 n).reverse, x < 10 := by
    intro x hx
    exact Nat.digits_lt_base (by norm_num) (List.mem_reverse.mp hx)
  have hrev : (Nat.digits 10 m).reverse = (Nat.digits 10 n).reverse :=
    map_digitChar_inj hb1 hb2 hl
  have hdig : Nat.digits 10 m = Nat.digits 10 n := List.reverse_injective hrev
  calc m = Nat.ofDigits 10 (Nat.digits 10 m) := (Nat.ofDigits_digits 10 m).symm
    _ = Nat.ofDigits 10 (Nat.digits 10 n) := by rw [hdig]
    _ = n := Nat.ofDigits_digits 10 n

/-- C7 (amended): the workspace root directory name is
`"ytdownload_" ++ timestamp` of the `FileManager`'s construction time,
so two downloader instances constructed at different (positive)
timestamps do get distinct roots — but the timestamp is sampled once per
instance, not per run, so any two runs through the same downloader
instance are allocated the very same root directory; per-run uniqueness
fails. -/
theorem workspaceRoot_per_instance_not_per_run (d : YoutubeDownloaderState)
    (r1 r2 t1 t2 : Nat) (tmp : Path) (h1 : 0 < t1) (h2 : 0 < t2) (hne : t1 ≠ t2) :
    workspaceRootForRun d r1 = workspaceRootForRun d r2 ∧
    workspaceRootForRun (mkYoutubeDownloader t1 tmp) r1 ≠
      workspaceRootForRun (mkYoutubeDownloader t2 tmp) r2 := by
  refine ⟨rfl, ?_⟩
  intro h
  simp only [workspaceRootForRun, mkYoutubeDownloader, baseTempDir] at h
  have hlast : "ytdownload" ++ "_" ++ natDecString t1 =
      "ytdownload" ++ "_" ++ natDecString t2 := by
    have := List.append_cancel_left h
    exact (List.cons.injEq _ _ _ _).mp this |>.1
  have hdata := congrArg String.data hlast
  simp only [String.data_append] at hdata
  have hstr : natDecString t1 = natDecString t2 :=
    String.ext (List.append_cancel_left hdata)
  exact hne (natDecString_inj h1 h2 hstr)

/-- Witness for C7 (amended) at two concrete instances and run times. -/
theorem workspaceRoot_per_instance_not_per_run_witness :
    ((0 : Nat) < 1) ∧ ((0 : Nat) < 2) ∧ ((1 : Nat) ≠ 2) ∧
    (workspaceRootForRun (mkYoutubeDownloader 1 ["tmp"]) 5 =
       workspaceRootForRun (mkYoutubeDownloader 1 ["tmp"]) 6 ∧
     workspaceRootForRun (mkYoutubeDownloader 1 ["tmp"]) 5 ≠
       workspaceRootForRun (mkYoutubeDownloader 2 ["tmp"]) 6) :=
  ⟨by decide, by decide, by decide,
    workspaceRoot_per_instance_not_per_run (mkYoutubeDownloader 1 ["tmp"]) 5 6 1 2
      ["tmp"] (by decide) (by decide) (by decide)⟩

/-- Counterexample to C7 as stated: two distinct runs (started at
distinct times 1 and 2) through one downloader instance receive the
same workspace root — `createTemporaryPaths` hands both runs the same
`tempDir`. -/
theorem workspaceRoot_shared_across_runs_cex :
    (1 : Nat) ≠ 2 ∧
    workspaceRootForRun (mkYoutubeDownloader 1700000000000 ["tmp"]) 1 =
      workspaceRootForRun (mkYoutubeDownloader 1700000000000 ["tmp"]) 2 ∧
    (temporaryPathsOf (mkYoutubeDownloader 1700000000000 ["tmp"]).fileManager).tempDir =
      workspaceRootForRun (mkYoutubeDownloader 1700000000000 ["tmp"]) 1 := by
  refine ⟨by decide, rfl, rfl⟩

end VideoDownloader
